import Mathlib

/-!
Verification of the booking dialogue state machine of the
desert-adventure-booking-ai-chatbot repository.

The visible code of the repository (src/src/bot.py) is the chat front-end:
conversation memory keyed by user id (`memory_store`, `get_memory`),
message extraction (`extract_user_text`) and the message handler
(`on_message`).  The booking state machine itself (the tools
`booking_get_or_create`, `booking_update`, `booking_compute_price`,
`booking_confirm` imported from `src.tools`) is not part of the visible
sources; its behaviour is modelled here from the specification, as
indicated on each such definition.  All monetary arithmetic is carried
out in integer minor units (whole AED), with the VAT rounded half-up.
-/

deriving instance DecidableEq for Except

namespace DesertBooking

/-- Whitespace as stripped by the Python method `strip` (the characters
relevant to chat text). -/
def isWs (c : Char) : Bool :=
  c = ' ' || c = '\t' || c = '\n' || c = '\r'

/-- Strip leading and trailing whitespace, as the Python method `strip`. -/
def trimmed (s : String) : String :=
  ⟨((s.data.dropWhile isWs).reverse.dropWhile isWs).reverse⟩

/-- Accumulate decimal digits into a number. -/
def parseNatAux : List Char → Nat → Option Nat
  | [], acc => some acc
  | c :: cs, acc =>
    if c.isDigit then parseNatAux cs (acc * 10 + (c.toNat - 48)) else none

/-- Parse a plain decimal number, as `int(value)` on a digit string. -/
def parse_number (v : String) : Option Nat :=
  match v.data with
  | [] => none
  | l => parseNatAux l 0

/-- Modelled from the spec: the activity enumeration of a booking draft
(`src.tools` is not in the visible sources).  Desert safari carries its
shared/private mode as part of the activity. -/
inductive Activity
  | buggy
  | quad
  | desert_safari_shared
  | desert_safari_private
deriving DecidableEq, Repr

/-- Modelled from the spec: accepted payment methods. -/
inductive PaymentMethod
  | cash
  | card
  | crypto
deriving DecidableEq, Repr

/-- Modelled from the spec: lifecycle states of a booking draft. -/
inductive Status
  | collecting
  | priced
  | confirmed
  | cancelled
deriving DecidableEq, Repr

/-- Modelled from the spec: the structured price breakdown produced by
`compute_price` (base unit price, subtotal, pickup fee, VAT, total),
all in integer minor units. -/
structure PriceBreakdown where
  base : Nat
  subtotal : Nat
  pickup_fee : Nat
  vat : Nat
  total : Nat
deriving DecidableEq, Repr

/-- Modelled from the spec: the booking draft record, one per user.
`date_time_iso` is modelled by the start time of the tour in minutes
since local midnight, `duration` in minutes. -/
structure BookingDraft where
  customer_name : Option String
  activity : Option Activity
  vehicle_model : Option String
  quantity : Option Nat
  duration : Option Nat
  date_time_iso : Option Nat
  pickup : Option Bool
  payment_method : Option PaymentMethod
  computed_price : Option PriceBreakdown
  status : Status
deriving DecidableEq, Repr

/-- Modelled from the spec: the empty draft created on first contact. -/
def emptyDraft : BookingDraft :=
  { customer_name := none
    activity := none
    vehicle_model := none
    quantity := none
    duration := none
    date_time_iso := none
    pickup := none
    payment_method := none
    computed_price := none
    status := .collecting }

/-- Modelled from the spec: validation error kinds. -/
inductive ErrKind
  | incomplete
  | invalid_value
  | out_of_range
  | hours_violation (bound : Nat)
  | seat_quantity_confusion
  | capped_quantity
deriving DecidableEq, Repr

/-- Modelled from the spec: result of the validation rules engine. -/
inductive ValidationResult
  | ok
  | error (k : ErrKind)
deriving DecidableEq, Repr

/-- Opening time of the operating window, minutes since midnight (09:00). -/
def OPEN_MIN : Nat := 9 * 60

/-- Closing time of the operating window, minutes since midnight (19:00). -/
def CLOSE_MIN : Nat := 19 * 60

/-- Modelled from the spec: operating-hours validation.  Rejects when the
start is before 09:00 local or the start plus the duration runs past
19:00 local; the error carries the violated bound. -/
def check_hours (start dur : Nat) : ValidationResult :=
  if start < OPEN_MIN then .error (.hours_violation OPEN_MIN)
  else if CLOSE_MIN < start + dur then .error (.hours_violation CLOSE_MIN)
  else .ok

/-- Modelled from the spec: valid buggy models. -/
def buggyModels : List String := ["2-seater", "4-seater"]

/-- Modelled from the spec: valid quad models. -/
def quadModels : List String :=
  ["Aon Cobra 400cc", "Polaris Sportsman 570cc", "Yamaha Raptor 700cc"]

/-- The characters of the seat-count suffix used by seat descriptors. -/
def seater_suffix : List Char := "-seater".data

/-- Modelled from the spec: the distinguishing check the engine exposes so
the caller can re-route seat-count descriptors (such as "2-seater") away
from the quantity slot. -/
def looks_like_seat_descriptor (v : String) : Bool :=
  seater_suffix.isSuffixOf v.data

/-- Modelled from the spec: a typed field-update proposal for a draft. -/
inductive FieldValue
  | name (s : String)
  | activity (a : Activity)
  | model (s : String)
  | quantity (n : Nat)
  | duration (n : Nat)
  | dateTime (t : Nat)
  | pickup (b : Bool)
  | payment (p : PaymentMethod)
deriving DecidableEq, Repr

/-- Modelled from the spec: whether a field participates in pricing; only
the customer name does not. -/
def FieldValue.priceAffecting : FieldValue → Bool
  | .name _ => false
  | _ => true

/-- Modelled from the spec: the validation rules engine, a pure function
from a draft and a proposed field value to a validation result. -/
def validate (d : BookingDraft) : FieldValue → ValidationResult
  | .name _ => .ok
  | .activity _ => .ok
  | .model m =>
    match d.activity with
    | some .buggy => if m ∈ buggyModels then .ok else .error .invalid_value
    | some .quad => if m ∈ quadModels then .ok else .error .invalid_value
    | _ => .error .invalid_value
  | .quantity n =>
    if n = 0 then .error .invalid_value
    else
      match d.activity with
      | some .desert_safari_shared => if n ≤ 10 then .ok else .error .capped_quantity
      | some .desert_safari_private => if n ≤ 10 then .ok else .error .capped_quantity
      | _ => .ok
  | .duration n =>
    match d.date_time_iso with
    | some t => check_hours t n
    | none => .ok
  | .dateTime t =>
    match d.duration with
    | some n => check_hours t n
    | none => if t < OPEN_MIN then .error (.hours_violation OPEN_MIN) else .ok
  | .pickup _ => .ok
  | .payment _ => .ok

/-- Modelled from the spec: write one proposed field into the draft. -/
def set_field (d : BookingDraft) : FieldValue → BookingDraft
  | .name s => { d with customer_name := some s }
  | .activity a => { d with activity := some a }
  | .model m => { d with vehicle_model := some m }
  | .quantity n => { d with quantity := some n }
  | .duration n => { d with duration := some n }
  | .dateTime t => { d with date_time_iso := some t }
  | .pickup b => { d with pickup := some b }
  | .payment p => { d with payment_method := some p }

/-- Modelled from the spec: pickup adds a flat 350 AED fee. -/
def pickupFee (pickup : Bool) : Nat := if pickup then 350 else 0

/-- Modelled from the spec: 5% VAT on card payments, rounded half-up to
the nearest minor unit; zero for every other payment method. -/
def vatOf (pm : PaymentMethod) (amount : Nat) : Nat :=
  match pm with
  | .card => (5 * amount + 50) / 100
  | _ => 0

/-- Modelled from the spec: activities that require a vehicle model. -/
def needsModel : Activity → Bool
  | .buggy => true
  | .quad => true
  | _ => false

/-- Modelled from the spec: the read-only pricing catalog interface. -/
structure Catalog where
  lookup : Activity → Option String → Nat → Option Nat

/-- Modelled from the spec: price-computation failures; the external-lookup
signal is a control result, not a failure. -/
inductive PriceError
  | incomplete
  | needs_pricing_from_kb
deriving DecidableEq, Repr

/-- Modelled from the spec: the price calculator.  Requires the pricing
fields to be present, looks the base unit price up in the catalog,
and derives subtotal, pickup fee, VAT and total in integer minor units. -/
def compute (cat : Catalog) (d : BookingDraft) : Except PriceError PriceBreakdown :=
  match d.activity, d.quantity, d.duration, d.pickup, d.payment_method, d.date_time_iso with
  | some a, some q, some dur, some pk, some pm, some _ =>
    if needsModel a && d.vehicle_model.isNone then .error .incomplete
    else
      match cat.lookup a d.vehicle_model dur with
      | none => .error .needs_pricing_from_kb
      | some unit =>
        let subtotal := unit * q
        let fee := pickupFee pk
        let vat := vatOf pm (subtotal + fee)
        .ok { base := unit
              subtotal := subtotal
              pickup_fee := fee
              vat := vat
              total := subtotal + fee + vat }
  | _, _, _, _, _, _ => .error .incomplete

/-- Modelled from the spec: result of an update operation. -/
inductive UpdateResult
  | accepted
  | rejected (k : ErrKind)
deriving DecidableEq, Repr

/-- Modelled from the spec: a status from which no further mutation is
allowed. -/
def terminalStatus : Status → Bool
  | .confirmed => true
  | .cancelled => true
  | _ => false

/-- Modelled from the spec: the draft produced by an accepted update —
the field is written, the computed price is cleared when a
price-affecting field changed, and the status reverts to collecting. -/
def apply_accept (d : BookingDraft) (f : FieldValue) : BookingDraft :=
  let d1 := set_field d f
  let d2 := if f.priceAffecting then { d1 with computed_price := none } else d1
  { d2 with status := .collecting }

/-- Modelled from the spec: the update operation of the booking state
machine.  Rejections are side-effect-free: the draft is returned
unchanged. -/
def update (d : BookingDraft) (f : FieldValue) : UpdateResult × BookingDraft :=
  if terminalStatus d.status then (.rejected .invalid_value, d)
  else
    match validate d f with
    | .error k => (.rejected k, d)
    | .ok => (.accepted, apply_accept d f)

/-- Modelled from the spec: state errors of confirm. -/
inductive StateError
  | not_priced
  | already_confirmed
deriving DecidableEq, Repr

/-- Modelled from the spec: the confirmation record echoed to the caller. -/
structure Confirmation where
  customer_name : String
  location : String
  total : Nat
deriving DecidableEq, Repr

/-- The fixed location echoed in the confirmation message. -/
def LOCATION : String := "Jetset Desert Camp, Dubai"

/-- Modelled from the spec: the confirm operation.  Requires the status
to be `priced` (hence no edit since the last successful pricing, since
every accepted edit reverts the status), transitions the draft to
`confirmed` and echoes customer name, location and total. -/
def confirm (d : BookingDraft) : Except StateError (Confirmation × BookingDraft) :=
  if d.status = .confirmed then .error .already_confirmed
  else if d.status = .priced then
    match d.computed_price, d.customer_name with
    | some pb, some nm =>
      .ok ({ customer_name := nm, location := LOCATION, total := pb.total },
           { d with status := .confirmed })
    | _, _ => .error .not_priced
  else .error .not_priced

/-- Modelled from the spec: the operations of the booking state machine
acting on one draft. -/
inductive Op
  | update (f : FieldValue)
  | computePrice
  | confirmOp
  | cancel
deriving DecidableEq, Repr

/-- Modelled from the spec: the state effect of one operation on one
draft; rejected operations leave the draft unchanged, a successful
price computation freezes the breakdown and moves to `priced`, and
cancel reaches `cancelled` from any non-terminal state. -/
def applyOp (cat : Catalog) (d : BookingDraft) : Op → BookingDraft
  | .update f => (update d f).2
  | .computePrice =>
    if terminalStatus d.status then d
    else
      match compute cat d with
      | .ok pb => { d with computed_price := some pb, status := .priced }
      | .error _ => d
  | .confirmOp =>
    match confirm d with
    | .ok p => p.2
    | .error _ => d
  | .cancel =>
    if terminalStatus d.status then d else { d with status := .cancelled }

/-- Modelled from the spec: drafts reachable from the empty draft by
state-machine operations. -/
inductive Reachable (cat : Catalog) : BookingDraft → Prop
  | init : Reachable cat emptyDraft
  | step (d : BookingDraft) (op : Op) : Reachable cat d → Reachable cat (applyOp cat d op)

/-- The stored price breakdown of a draft, when present, is exactly what
the price calculator yields on the current fields of that draft. -/
def PriceFresh (cat : Catalog) (d : BookingDraft) : Prop :=
  ∀ pb, d.computed_price = some pb → compute cat d = .ok pb

/-- Modelled from the spec: the per-user draft store. -/
abbrev DraftStore := String → Option BookingDraft

/-- The store with no active drafts. -/
def emptyStore : DraftStore := fun _ => none

/-- Modelled from the spec: idempotent get-or-create of the single
active draft of a user. -/
def get_or_create (s : DraftStore) (user_id : String) : BookingDraft × DraftStore :=
  match s user_id with
  | some d => (d, s)
  | none => (emptyDraft, fun u => if u = user_id then some emptyDraft else s u)

/-- Modelled from the spec: a per-user operation against the draft store. -/
inductive UserOp
  | getOrCreate
  | draftOp (o : Op)
deriving DecidableEq, Repr

/-- Modelled from the spec: the effect of the operation of one user on
the draft store; only the entry of that user is read or written. -/
def applyUserOp (cat : Catalog) (s : DraftStore) (u : String) : UserOp → DraftStore
  | .getOrCreate => (get_or_create s u).2
  | .draftOp o =>
    match s u with
    | none => s
    | some d => fun v => if v = u then some (applyOp cat d o) else s v

/-- Conversation memory as kept by `ConversationBufferWindowMemory` in
src/src/bot.py: a window size and the retained messages. -/
structure Memory where
  k : Nat
  messages : List String
deriving DecidableEq, Repr

/-- A fresh `ConversationBufferWindowMemory(k=20, ...)` as created in
`get_memory` of src/src/bot.py. -/
def emptyMemory : Memory := { k := 20, messages := [] }

/-- The global `memory_store` of src/src/bot.py, keyed by user id. -/
abbrev MemStore := String → Option Memory

/-- The memory store before any user has messaged. -/
def emptyMemStore : MemStore := fun _ => none

/-- Embeds `get_memory` of src/src/bot.py: creates the memory of a user on
first use, then returns the stored one. -/
def get_memory (store : MemStore) (user_id : String) : Memory × MemStore :=
  match store user_id with
  | some m => (m, store)
  | none => (emptyMemory, fun u => if u = user_id then some emptyMemory else store u)

/-- Embeds `extract_user_text` of src/src/bot.py:
`(update.message.text or "").strip()`. -/
def extract_user_text (text : Option String) : String :=
  trimmed (text.getD "")

/-- The fixed notice sent for an empty message in src/src/bot.py. -/
def EMPTY_NOTICE : String := "I didn’t catch that. Please type your message."

/-- The fallback reply when the agent produced no output, src/src/bot.py. -/
def FALLBACK_REPLY : String := "Sorry — I couldn’t generate a response. Try again."

/-- The outcome of one incoming message: the memory store afterwards, the
reply sent, and whether the agent executor was invoked. -/
structure MsgOutcome where
  store : MemStore
  reply : String
  agentInvoked : Bool

/-- Embeds `on_message` of src/src/bot.py.  The agent executor (LLM) is
an external collaborator, passed as a function from the agent input and
the prior memory messages to the output text and the new messages. -/
def on_message (agent : String → List String → String × List String)
    (store : MemStore) (user_id : String) (text : Option String) : MsgOutcome :=
  let user_text := extract_user_text text
  if user_text = "" then
    { store := store, reply := EMPTY_NOTICE, agentInvoked := false }
  else
    let p := get_memory store user_id
    let q := agent ("[user_id=" ++ user_id ++ "] " ++ user_text) p.1.messages
    let reply := if trimmed q.1 = "" then FALLBACK_REPLY else trimmed q.1
    { store := fun v => if v = user_id then some { p.1 with messages := q.2 } else p.2 v
      reply := reply
      agentInvoked := true }

/-- Modelled from the spec: caller-side interpretation of a raw value
offered for the quantity slot.  For buggy/quad, a seat-count descriptor
is re-routed to the vehicle-model field via
`looks_like_seat_descriptor`; a plain number becomes a vehicle count. -/
inductive QuantityInput
  | modelUpdate (v : String)
  | quantityUpdate (n : Nat)
  | unrecognized
deriving DecidableEq, Repr

/-- Modelled from the spec: disambiguation of quantity-slot input. -/
def interpret_quantity_input (a : Activity) (v : String) : QuantityInput :=
  match a with
  | .buggy =>
    if looks_like_seat_descriptor v then .modelUpdate v
    else
      match parse_number v with
      | some n => .quantityUpdate n
      | none => .unrecognized
  | .quad =>
    if looks_like_seat_descriptor v then .modelUpdate v
    else
      match parse_number v with
      | some n => .quantityUpdate n
      | none => .unrecognized
  | _ =>
    match parse_number v with
    | some n => .quantityUpdate n
    | none => .unrecognized

/-- Modelled from the spec: applying a raw quantity-slot input to a
draft, after disambiguation. -/
def apply_quantity_input (d : BookingDraft) (v : String) : UpdateResult × BookingDraft :=
  match d.activity with
  | some a =>
    match interpret_quantity_input a v with
    | .modelUpdate m => update d (.model m)
    | .quantityUpdate n => update d (.quantity n)
    | .unrecognized => (.rejected .invalid_value, d)
  | none => (.rejected .incomplete, d)

/-- The Yamaha quad model of the end-to-end scenario. -/
def yamahaModel : String := "Yamaha Raptor 700cc"

/-- Catalog for the end-to-end scenario: 300 AED per unit for the Yamaha
quad at a 2-hour (120-minute) duration. -/
def cat2 : Catalog :=
  { lookup := fun a m dur =>
      if a = .quad ∧ m = some yamahaModel ∧ dur = 120 then some 300 else none }

/-- The fully collected draft of the end-to-end scenario: quad, Yamaha
Raptor 700cc, quantity 2, 2-hour duration starting 14:00, pickup, card. -/
def draft2 : BookingDraft :=
  { customer_name := some "Irfan"
    activity := some .quad
    vehicle_model := some yamahaModel
    quantity := some 2
    duration := some 120
    date_time_iso := some 840
    pickup := some true
    payment_method := some .card
    computed_price := none
    status := .collecting }

/-- The expected breakdown of the end-to-end scenario. -/
def pb2 : PriceBreakdown :=
  { base := 300, subtotal := 600, pickup_fee := 350, vat := 48, total := 998 }

/-- The scenario draft in the `priced` state, its breakdown frozen. -/
def dP : BookingDraft := { draft2 with computed_price := some pb2, status := .priced }

/-- A desert-safari (shared) draft used as a concrete witness input. -/
def dShared : BookingDraft := { emptyDraft with activity := some .desert_safari_shared }

/-- A buggy draft with a previously selected model, used as a concrete
witness input. -/
def dBuggy : BookingDraft :=
  { emptyDraft with activity := some .buggy, vehicle_model := some "4-seater" }

end DesertBooking

namespace DesertBooking

theorem vatOf_card_round (a : Nat) :
    ((vatOf .card a : ℤ)) = round ((5 : ℚ) / 100 * (a : ℚ)) := by
  have h20 : vatOf .card a = (a + 10) / 20 := by
    show (5 * a + 50) / 100 = (a + 10) / 20
    omega
  have hx : (5 : ℚ) / 100 * (a : ℚ) + 1 / 2 = ((a + 10 : ℕ) : ℚ) / ((20 : ℕ) : ℚ) := by
    push_cast; ring
  have hnn : (0 : ℚ) ≤ ((a + 10 : ℕ) : ℚ) / ((20 : ℕ) : ℚ) := by positivity
  rw [round_eq, hx, ← Int.natCast_floor_eq_floor hnn, Nat.floor_div_eq_div, h20]

theorem compute_ok_inv {cat : Catalog} {d : BookingDraft} {pb : PriceBreakdown}
    (h : compute cat d = .ok pb) :
    ∃ a q dur pk pm,
      d.activity = some a ∧ d.quantity = some q ∧ d.duration = some dur ∧
      d.pickup = some pk ∧ d.payment_method = some pm ∧
      cat.lookup a d.vehicle_model dur = some pb.base ∧
      pb.subtotal = pb.base * q ∧
      pb.pickup_fee = pickupFee pk ∧
      pb.vat = vatOf pm (pb.subtotal + pb.pickup_fee) ∧
      pb.total = pb.subtotal + pb.pickup_fee + pb.vat := by
  unfold compute at h
  split at h
  · rename_i a q dur pk pm t hA hQ hD hPk hPm hT
    split at h
    · exact absurd h (by simp)
    · split at h
      · exact absurd h (by simp)
      · rename_i unit hLk
        rw [Except.ok.injEq] at h
        subst h
        exact ⟨a, q, dur, pk, pm, hA, hQ, hD, hPk, hPm, hLk, rfl, rfl, rfl, rfl⟩
  · exact absurd h (by simp)

end DesertBooking

namespace DesertBooking

/-- C1: for every draft whose pricing succeeds, the total equals
subtotal (unit price times quantity) plus pickup fee plus VAT, the
pickup fee is 350 when the pickup flag is set and 0 otherwise, and the
VAT is 0 for every non-card payment method while for card it is 5% of
subtotal plus pickup fee, rounded half-up to the nearest minor unit. -/
theorem compute_price_formula (cat : Catalog) (d : BookingDraft) (pb : PriceBreakdown)
    (h : compute cat d = .ok pb) :
    pb.total = pb.subtotal + pb.pickup_fee + pb.vat ∧
    (∀ q, d.quantity = some q → pb.subtotal = pb.base * q) ∧
    (d.pickup = some true → pb.pickup_fee = 350) ∧
    (d.pickup = some false → pb.pickup_fee = 0) ∧
    (∀ pm, d.payment_method = some pm → pm ≠ .card → pb.vat = 0) ∧
    (d.payment_method = some .card →
      (pb.vat : ℤ) = round ((5 : ℚ) / 100 * ((pb.subtotal : ℚ) + (pb.pickup_fee : ℚ)))) := by
  obtain ⟨a, q, dur, pk, pm, hA, hQ, hD, hPk, hPm, hLk, hSub, hFee, hVat, hTot⟩ :=
    compute_ok_inv h
  refine ⟨hTot, ?_, ?_, ?_, ?_, ?_⟩
  · intro q' hq'
    rw [hQ, Option.some.injEq] at hq'
    rw [hSub, hq']
  · intro hp
    rw [hPk, Option.some.injEq] at hp
    rw [hFee, hp]
    rfl
  · intro hp
    rw [hPk, Option.some.injEq] at hp
    rw [hFee, hp]
    rfl
  · intro pm' hpm' hne
    rw [hPm, Option.some.injEq] at hpm'
    subst hpm'
    rw [hVat]
    cases pm with
    | card => exact absurd rfl hne
    | cash => rfl
    | crypto => rfl
  · intro hcard
    rw [hPm, Option.some.injEq] at hcard
    subst hcard
    rw [hVat]
    have := vatOf_card_round (pb.subtotal + pb.pickup_fee)
    rw [this]
    norm_num

/-- Witness for C1, instantiated at the end-to-end scenario draft. -/
theorem compute_price_formula_witness :
    pb2.total = pb2.subtotal + pb2.pickup_fee + pb2.vat ∧
    pb2.subtotal = pb2.base * 2 ∧
    pb2.pickup_fee = 350 ∧
    (pb2.vat : ℤ) = round ((5 : ℚ) / 100 * ((pb2.subtotal : ℚ) + (pb2.pickup_fee : ℚ))) := by
  have h := compute_price_formula cat2 draft2 pb2 (by decide)
  exact ⟨h.1, h.2.1 2 rfl, h.2.2.1 rfl, h.2.2.2.2.2 rfl⟩

/-- C2: the end-to-end scenario (quad, Yamaha Raptor 700cc, quantity 2,
2-hour duration, pickup, card payment, catalog unit price 300) yields
subtotal 600, pickup fee 350, VAT 48 — the round-half-up of
0.05 × 950 = 47.5 — and total 998, in exact integer arithmetic. -/
theorem quad_scenario_breakdown :
    compute cat2 draft2 = .ok pb2 ∧
    pb2.subtotal = 600 ∧ pb2.pickup_fee = 350 ∧ pb2.vat = 48 ∧ pb2.total = 998 ∧
    ((48 : ℤ) = round ((5 : ℚ) / 100 * 950)) := by
  refine ⟨by decide, rfl, rfl, rfl, rfl, ?_⟩
  have h : (5 : ℚ) / 100 * 950 + 1 / 2 = ((48 : ℤ) : ℚ) := by norm_num
  rw [round_eq, h, Int.floor_intCast]

/-- C3: the operating-hours validation rejects exactly when the start is
before 09:00 local or the start plus the duration runs past 19:00 local,
the error carries the violated bound, and a tour starting 14:00 with a
5-hour duration (ending exactly 19:00) is accepted. -/
theorem operating_hours_spec :
    (∀ start dur, start < OPEN_MIN →
        check_hours start dur = .error (.hours_violation OPEN_MIN)) ∧
    (∀ start dur, OPEN_MIN ≤ start → CLOSE_MIN < start + dur →
        check_hours start dur = .error (.hours_violation CLOSE_MIN)) ∧
    (∀ start dur, OPEN_MIN ≤ start → start + dur ≤ CLOSE_MIN →
        check_hours start dur = .ok) ∧
    check_hours (14 * 60) (5 * 60) = .ok := by
  refine ⟨?_, ?_, ?_, by decide⟩
  · intro s dur h
    unfold check_hours
    rw [if_pos h]
  · intro s dur h1 h2
    unfold check_hours
    rw [if_neg (by omega), if_pos h2]
  · intro s dur h1 h2
    unfold check_hours
    rw [if_neg (by omega), if_neg (by omega)]

/-- Witness for C3: an early start, a late finish, and the boundary tour. -/
theorem operating_hours_spec_witness :
    check_hours 480 60 = .error (.hours_violation OPEN_MIN) ∧
    check_hours 1000 200 = .error (.hours_violation CLOSE_MIN) ∧
    check_hours 840 300 = .ok :=
  ⟨operating_hours_spec.1 480 60 (by decide),
   operating_hours_spec.2.1 1000 200 (by decide) (by decide),
   operating_hours_spec.2.2.1 840 300 (by decide) (by decide)⟩

/-- C7: get-or-create is idempotent — a second call for the same user
without an intervening confirm or cancel returns the same draft and
leaves the store untouched; the same holds for the per-user conversation
memory of `get_memory` in src/src/bot.py. -/
theorem get_or_create_idempotent :
    (∀ (s : DraftStore) (u : String),
        get_or_create (get_or_create s u).2 u = get_or_create s u) ∧
    (∀ (m : MemStore) (u : String),
        get_memory (get_memory m u).2 u = get_memory m u) := by
  constructor
  · intro s u
    unfold get_or_create
    cases h : s u with
    | some d => simp [h]
    | none => simp [h]
  · intro m u
    unfold get_memory
    cases h : m u with
    | some x => simp [h]
    | none => simp [h]

/-- C10: a message whose text is absent or trims to the empty string is
answered with the fixed notice, the agent is not invoked, and the memory
store is returned unchanged. -/
theorem empty_message_no_effect
    (agent : String → List String → String × List String)
    (store : MemStore) (user_id : String) (text : Option String)
    (h : text = none ∨ ∃ s, text = some s ∧ trimmed s = "") :
    on_message agent store user_id text =
      { store := store, reply := EMPTY_NOTICE, agentInvoked := false } := by
  have hx : extract_user_text text = "" := by
    rcases h with rfl | ⟨s, rfl, hs⟩
    · rfl
    · simpa [extract_user_text] using hs
  simp [on_message, hx]

/-- Witness for C10: an absent text on the empty store. -/
theorem empty_message_no_effect_witness :
    on_message (fun i m => (i, m)) emptyMemStore "42" none =
      { store := emptyMemStore, reply := EMPTY_NOTICE, agentInvoked := false } :=
  empty_message_no_effect (fun i m => (i, m)) emptyMemStore "42" none (Or.inl rfl)

end DesertBooking

namespace DesertBooking

theorem update_of_terminal (d : BookingDraft) (f : FieldValue)
    (h : terminalStatus d.status = true) :
    update d f = (.rejected .invalid_value, d) := by
  unfold update
  rw [if_pos h]

theorem update_of_ok (d : BookingDraft) (f : FieldValue)
    (ht : terminalStatus d.status = false) (hv : validate d f = .ok) :
    update d f = (.accepted, apply_accept d f) := by
  unfold update
  rw [if_neg (by simp [ht]), hv]

theorem update_cases (d : BookingDraft) (f : FieldValue) :
    (update d f).2 = d ∨ update d f = (.accepted, apply_accept d f) := by
  unfold update
  by_cases ht : terminalStatus d.status = true
  · rw [if_pos ht]
    exact Or.inl rfl
  · rw [if_neg ht]
    cases hv : validate d f with
    | ok => exact Or.inr rfl
    | error k => exact Or.inl rfl

theorem update_accepted_inv {d : BookingDraft} {f : FieldValue} {r : BookingDraft}
    (h : update d f = (.accepted, r)) :
    terminalStatus d.status = false ∧ validate d f = .ok ∧ r = apply_accept d f := by
  unfold update at h
  by_cases ht : terminalStatus d.status = true
  · rw [if_pos ht] at h
    simp at h
  · rw [if_neg ht] at h
    cases hv : validate d f with
    | ok =>
      rw [hv] at h
      simp at h
      exact ⟨by simpa using ht, rfl, h.symm⟩
    | error k =>
      rw [hv] at h
      simp at h

theorem apply_accept_status (d : BookingDraft) (f : FieldValue) :
    (apply_accept d f).status = .collecting := rfl

theorem apply_accept_cp_of_pa (d : BookingDraft) (f : FieldValue)
    (h : f.priceAffecting = true) :
    (apply_accept d f).computed_price = none := by
  simp [apply_accept, h]

theorem priceAffecting_eq_false {f : FieldValue} (h : f.priceAffecting = false) :
    ∃ s, f = .name s := by
  cases f <;> simp_all [FieldValue.priceAffecting]

theorem update_model_quantity (d : BookingDraft) (m : String) :
    ((update d (.model m)).2).quantity = d.quantity := by
  rcases update_cases d (.model m) with h | h
  · rw [h]
  · rw [h]
    rfl

/-- C6: for a desert-safari draft (shared or private), a quantity above
10 is rejected with the capped-quantity error and the draft is left
unchanged, while any quantity from 1 to 10 passes the cap rule. -/
theorem safari_quantity_cap (d : BookingDraft) (q : Nat)
    (ha : d.activity = some .desert_safari_shared ∨
          d.activity = some .desert_safari_private) :
    (10 < q → validate d (.quantity q) = .error .capped_quantity ∧
        (update d (.quantity q)).2 = d) ∧
    (1 ≤ q → q ≤ 10 → validate d (.quantity q) = .ok) := by
  constructor
  · intro hq
    have hv : validate d (.quantity q) = .error .capped_quantity := by
      simp only [validate]
      rw [if_neg (show ¬ q = 0 by omega)]
      rcases ha with h | h <;> rw [h] <;> rw [if_neg (by omega)]
    refine ⟨hv, ?_⟩
    rcases update_cases d (.quantity q) with h | h
    · exact h
    · have := (update_accepted_inv h).2.1
      rw [hv] at this
      cases this
  · intro h1 h2
    simp only [validate]
    rw [if_neg (show ¬ q = 0 by omega)]
    rcases ha with h | h <;> rw [h] <;> rw [if_pos h2]

/-- Witness for C6 at a shared-safari draft with quantities 11 and 5. -/
theorem safari_quantity_cap_witness :
    (validate dShared (.quantity 11) = .error .capped_quantity ∧
     (update dShared (.quantity 11)).2 = dShared) ∧
    validate dShared (.quantity 5) = .ok :=
  ⟨(safari_quantity_cap dShared 11 (Or.inl rfl)).1 (by decide),
   (safari_quantity_cap dShared 5 (Or.inl rfl)).2 (by decide) (by decide)⟩

/-- C8: for a buggy draft, a seat-count descriptor offered as quantity is
never interpreted as a quantity — it is routed to the vehicle-model
field, leaving the quantity unchanged, and "2-seater"/"4-seater" update
the vehicle model; a plain number such as "3" sets the quantity to that
number of vehicles regardless of any prior model selection. -/
theorem seat_descriptor_disambiguation :
    (∀ (d : BookingDraft) (v : String), d.activity = some .buggy →
        looks_like_seat_descriptor v = true →
        (∀ n, interpret_quantity_input .buggy v ≠ .quantityUpdate n) ∧
        ((apply_quantity_input d v).2).quantity = d.quantity) ∧
    (∀ (d : BookingDraft) (v : String), d.activity = some .buggy →
        d.status = .collecting → (v = "2-seater" ∨ v = "4-seater") →
        apply_quantity_input d v =
          (.accepted, { d with vehicle_model := some v, computed_price := none,
                               status := .collecting })) ∧
    (∀ d : BookingDraft, d.activity = some .buggy → d.status = .collecting →
        apply_quantity_input d "3" =
          (.accepted, { d with quantity := some 3, computed_price := none,
                               status := .collecting })) := by
  refine ⟨?_, ?_, ?_⟩
  · intro d v hA hls
    constructor
    · intro n
      simp [interpret_quantity_input, hls]
    · simp only [apply_quantity_input, hA]
      simp only [interpret_quantity_input, hls, if_true]
      exact update_model_quantity d v
  · intro d v hA hst hv
    have ht : terminalStatus d.status = false := by rw [hst]; rfl
    rcases hv with rfl | rfl
    · have hls : looks_like_seat_descriptor "2-seater" = true := by decide
      have hval : validate d (.model "2-seater") = .ok := by
        simp only [validate]
        rw [hA, if_pos (by decide)]
      simp only [apply_quantity_input, hA]
      simp only [interpret_quantity_input, hls, if_true]
      rw [update_of_ok d _ ht hval]
      simp [apply_accept, set_field, FieldValue.priceAffecting, hA]
    · have hls : looks_like_seat_descriptor "4-seater" = true := by decide
      have hval : validate d (.model "4-seater") = .ok := by
        simp only [validate]
        rw [hA, if_pos (by decide)]
      simp only [apply_quantity_input, hA]
      simp only [interpret_quantity_input, hls, if_true]
      rw [update_of_ok d _ ht hval]
      simp [apply_accept, set_field, FieldValue.priceAffecting, hA]
  · intro d hA hst
    have ht : terminalStatus d.status = false := by rw [hst]; rfl
    have hls : looks_like_seat_descriptor "3" = false := by decide
    have hval : validate d (.quantity 3) = .ok := by
      simp only [validate]
      rw [if_neg (show ¬ (3 : Nat) = 0 by omega), hA]
    simp only [apply_quantity_input, hA]
    simp only [interpret_quantity_input, hls, Bool.false_eq_true, if_false]
    rw [show parse_number "3" = some 3 by decide]
    show update d (.quantity 3) = _
    rw [update_of_ok d _ ht hval]
    simp [apply_accept, set_field, FieldValue.priceAffecting, hA]

/-- Witness for C8 at a buggy draft with a previously chosen model. -/
theorem seat_descriptor_disambiguation_witness :
    (interpret_quantity_input .buggy "2-seater" ≠ .quantityUpdate 2) ∧
    ((apply_quantity_input dBuggy "2-seater").2).quantity = dBuggy.quantity ∧
    apply_quantity_input dBuggy "2-seater" =
      (.accepted, { dBuggy with vehicle_model := some "2-seater",
                                computed_price := none, status := .collecting }) ∧
    apply_quantity_input dBuggy "3" =
      (.accepted, { dBuggy with quantity := some 3, computed_price := none,
                                status := .collecting }) :=
  ⟨(seat_descriptor_disambiguation.1 dBuggy "2-seater" rfl (by decide)).1 2,
   (seat_descriptor_disambiguation.1 dBuggy "2-seater" rfl (by decide)).2,
   seat_descriptor_disambiguation.2.1 dBuggy "2-seater" rfl rfl (Or.inl rfl),
   seat_descriptor_disambiguation.2.2 dBuggy rfl rfl⟩

end DesertBooking

namespace DesertBooking

theorem confirm_ok_inv {d : BookingDraft} {c : Confirmation} {d' : BookingDraft}
    (h : confirm d = .ok (c, d')) :
    d.status = .priced ∧ d' = { d with status := .confirmed } ∧
    c.location = LOCATION ∧
    (∃ pb, d.computed_price = some pb ∧ c.total = pb.total) ∧
    d.customer_name = some c.customer_name := by
  unfold confirm at h
  by_cases h1 : d.status = .confirmed
  · rw [if_pos h1] at h
    simp at h
  · rw [if_neg h1] at h
    by_cases h2 : d.status = .priced
    · rw [if_pos h2] at h
      cases hcp : d.computed_price with
      | none =>
        rw [hcp] at h
        simp at h
      | some pb =>
        cases hnm : d.customer_name with
        | none =>
          rw [hcp, hnm] at h
          simp at h
        | some nm =>
          rw [hcp, hnm] at h
          rw [Except.ok.injEq, Prod.mk.injEq] at h
          obtain ⟨hc, hd⟩ := h
          subst hc
          subst hd
          exact ⟨h2, rfl, rfl, ⟨pb, rfl, rfl⟩, rfl⟩
    · rw [if_neg h2] at h
      simp at h

/-- C4: confirm succeeds only on a `priced` draft; after any accepted
field update of a priced draft — even one that would price identically —
confirm fails with `not_priced`; on success the draft transitions to
`confirmed` and the confirmation echoes customer name, location and
total. -/
theorem confirm_gating :
    (∀ (d : BookingDraft) (c : Confirmation) (d' : BookingDraft),
        confirm d = .ok (c, d') → d.status = .priced) ∧
    (∀ (d : BookingDraft) (f : FieldValue) (r : BookingDraft),
        d.status = .priced → update d f = (.accepted, r) →
        confirm r = .error .not_priced) ∧
    (∀ (d : BookingDraft) (c : Confirmation) (d' : BookingDraft),
        confirm d = .ok (c, d') →
        d'.status = .confirmed ∧ d.customer_name = some c.customer_name ∧
        c.location = LOCATION ∧
        ∃ pb, d.computed_price = some pb ∧ c.total = pb.total) := by
  refine ⟨?_, ?_, ?_⟩
  · intro d c d' h
    exact (confirm_ok_inv h).1
  · intro d f r hst hupd
    obtain ⟨ht, hv, hr⟩ := update_accepted_inv hupd
    subst hr
    unfold confirm
    rw [if_neg (by simp [apply_accept_status]), if_neg (by simp [apply_accept_status])]
  · intro d c d' h
    obtain ⟨hs, hd', hloc, hex, hnm⟩ := confirm_ok_inv h
    subst hd'
    exact ⟨rfl, hnm, hloc, hex⟩

/-- Witness for C4 at the priced scenario draft. -/
theorem confirm_gating_witness :
    dP.status = .priced ∧
    confirm ((update dP (.pickup false)).2) = .error .not_priced ∧
    (({ dP with status := .confirmed } : BookingDraft).status = .confirmed ∧
      dP.customer_name = some "Irfan" ∧ LOCATION = LOCATION ∧
      ∃ pb, dP.computed_price = some pb ∧ (998 : Nat) = pb.total) :=
  ⟨confirm_gating.1 dP { customer_name := "Irfan", location := LOCATION, total := 998 }
      ({ dP with status := .confirmed }) (by decide),
   confirm_gating.2.1 dP (.pickup false) ((update dP (.pickup false)).2) rfl (by decide),
   confirm_gating.2.2 dP { customer_name := "Irfan", location := LOCATION, total := 998 }
      ({ dP with status := .confirmed }) (by decide)⟩

end DesertBooking

namespace DesertBooking

theorem compute_irrel_status (cat : Catalog) (d : BookingDraft) (st : Status) :
    compute cat { d with status := st } = compute cat d := rfl

theorem compute_irrel_cp_status (cat : Catalog) (d : BookingDraft)
    (x : Option PriceBreakdown) (st : Status) :
    compute cat { d with computed_price := x, status := st } = compute cat d := rfl

theorem compute_apply_accept_name (cat : Catalog) (d : BookingDraft) (s : String) :
    compute cat (apply_accept d (.name s)) = compute cat d := rfl

theorem apply_accept_cp_name (d : BookingDraft) (s : String) :
    (apply_accept d (.name s)).computed_price = d.computed_price := rfl

/-- C5: an accepted update of a price-affecting field always clears the
computed price and reverts the status to collecting; the status advances
only along collecting → priced → confirmed (confirmed and cancelled are
terminal, priced is entered only from collecting or priced, confirmed
only from priced); and every reachable draft holds only a fresh computed
price — one equal to what the calculator yields on its current fields. -/
theorem draft_invariants :
    (∀ (d : BookingDraft) (f : FieldValue) (r : BookingDraft),
        update d f = (.accepted, r) → f.priceAffecting = true →
        r.computed_price = none ∧ r.status = .collecting) ∧
    (∀ (cat : Catalog) (d : BookingDraft) (op : Op),
        (d.status = .confirmed → (applyOp cat d op).status = .confirmed) ∧
        (d.status = .cancelled → (applyOp cat d op).status = .cancelled) ∧
        ((applyOp cat d op).status = .priced →
            d.status = .collecting ∨ d.status = .priced) ∧
        ((applyOp cat d op).status = .confirmed →
            d.status = .priced ∨ d.status = .confirmed)) ∧
    (∀ (cat : Catalog) (d : BookingDraft), Reachable cat d → PriceFresh cat d) := by
  refine ⟨?_, ?_, ?_⟩
  · intro d f r h hp
    obtain ⟨ht, hv, hr⟩ := update_accepted_inv h
    subst hr
    exact ⟨apply_accept_cp_of_pa d f hp, apply_accept_status d f⟩
  · intro cat d op
    cases op with
    | update f =>
      simp only [applyOp]
      rcases update_cases d f with h | h
      · rw [h]
        exact ⟨fun hh => hh, fun hh => hh, fun hh => Or.inr hh, fun hh => Or.inr hh⟩
      · have ht := (update_accepted_inv h).1
        rw [h]
        refine ⟨?_, ?_, ?_, ?_⟩
        · intro hh
          rw [hh] at ht
          simp [terminalStatus] at ht
        · intro hh
          rw [hh] at ht
          simp [terminalStatus] at ht
        · intro hh
          rw [apply_accept_status] at hh
          cases hh
        · intro hh
          rw [apply_accept_status] at hh
          cases hh
    | computePrice =>
      simp only [applyOp]
      by_cases ht : terminalStatus d.status = true
      · rw [if_pos ht]
        exact ⟨fun hh => hh, fun hh => hh, fun hh => Or.inr hh, fun hh => Or.inr hh⟩
      · rw [if_neg ht]
        cases hc : compute cat d with
        | error e =>
          exact ⟨fun hh => hh, fun hh => hh, fun hh => Or.inr hh, fun hh => Or.inr hh⟩
        | ok pb =>
          refine ⟨?_, ?_, ?_, ?_⟩
          · intro hh
            rw [hh] at ht
            simp [terminalStatus] at ht
          · intro hh
            rw [hh] at ht
            simp [terminalStatus] at ht
          · intro hh
            cases hst : d.status with
            | collecting => exact Or.inl rfl
            | priced => exact Or.inr rfl
            | confirmed => rw [hst] at ht; simp [terminalStatus] at ht
            | cancelled => rw [hst] at ht; simp [terminalStatus] at ht
          · intro hh
            cases hh
    | confirmOp =>
      simp only [applyOp]
      cases hc : confirm d with
      | error e =>
        exact ⟨fun hh => hh, fun hh => hh, fun hh => Or.inr hh, fun hh => Or.inr hh⟩
      | ok p =>
        obtain ⟨c, d'⟩ := p
        obtain ⟨hs, hd', -, -, -⟩ := confirm_ok_inv hc
        subst hd'
        refine ⟨?_, ?_, ?_, ?_⟩
        · exact fun hh => rfl
        · intro hh
          rw [hh] at hs
          cases hs
        · intro hh
          cases hh
        · intro hh
          exact Or.inl hs
    | cancel =>
      simp only [applyOp]
      by_cases ht : terminalStatus d.status = true
      · rw [if_pos ht]
        exact ⟨fun hh => hh, fun hh => hh, fun hh => Or.inr hh, fun hh => Or.inr hh⟩
      · rw [if_neg ht]
        refine ⟨?_, ?_, ?_, ?_⟩
        · intro hh
          rw [hh] at ht
          simp [terminalStatus] at ht
        · exact fun hh => rfl
        · intro hh
          cases hh
        · intro hh
          cases hh
  · intro cat d hr
    induction hr with
    | init =>
      intro pb h
      simp [emptyDraft] at h
    | step d op hd ih =>
      cases op with
      | update f =>
        simp only [applyOp]
        rcases update_cases d f with h | h
        · rw [h]
          exact ih
        · rw [h]
          by_cases hp : f.priceAffecting = true
          · intro pb hpb
            rw [apply_accept_cp_of_pa d f hp] at hpb
            cases hpb
          · obtain ⟨s, rfl⟩ := priceAffecting_eq_false (by simpa using hp)
            intro pb hpb
            rw [apply_accept_cp_name] at hpb
            rw [compute_apply_accept_name]
            exact ih pb hpb
      | computePrice =>
        simp only [applyOp]
        by_cases ht : terminalStatus d.status = true
        · rw [if_pos ht]
          exact ih
        · rw [if_neg ht]
          cases hc : compute cat d with
          | error e => exact ih
          | ok pb =>
            intro pb' hpb'
            have hx : some pb = some pb' := hpb'
            rw [Option.some.injEq] at hx
            rw [compute_irrel_cp_status, hc, hx]
      | confirmOp =>
        simp only [applyOp]
        cases hc : confirm d with
        | error e => exact ih
        | ok p =>
          obtain ⟨c, d'⟩ := p
          obtain ⟨hs, hd', -, -, -⟩ := confirm_ok_inv hc
          subst hd'
          intro pb hpb
          have hx : d.computed_price = some pb := hpb
          rw [compute_irrel_status]
          exact ih pb hx
      | cancel =>
        simp only [applyOp]
        by_cases ht : terminalStatus d.status = true
        · rw [if_pos ht]
          exact ih
        · rw [if_neg ht]
          intro pb hpb
          have hx : d.computed_price = some pb := hpb
          rw [compute_irrel_status]
          exact ih pb hx

/-- Witness for C5: a concrete accepted price-affecting update, a
terminal-status transition, and freshness of the initial draft. -/
theorem draft_invariants_witness :
    ((update draft2 (.pickup false)).2.computed_price = none ∧
     (update draft2 (.pickup false)).2.status = .collecting) ∧
    (emptyDraft.status = .confirmed → (applyOp cat2 emptyDraft .cancel).status = .confirmed) ∧
    PriceFresh cat2 emptyDraft :=
  ⟨draft_invariants.1 draft2 (.pickup false) ((update draft2 (.pickup false)).2)
      (by decide) (by decide),
   (draft_invariants.2.1 cat2 emptyDraft .cancel).1,
   draft_invariants.2.2 cat2 emptyDraft Reachable.init⟩

/-- C9: operations performed for one user read and write only that
own entry of the acting user in the draft store — the draft of any other
user is untouched, and the outcome for a user depends only on the own
entry of that user; the
same per-user isolation holds for the conversation memory store of
src/src/bot.py. -/
theorem user_isolation :
    (∀ (cat : Catalog) (s : DraftStore) (u : String) (op : UserOp) (v : String),
        v ≠ u → applyUserOp cat s u op v = s v) ∧
    (∀ (cat : Catalog) (s t : DraftStore) (u : String) (op : UserOp),
        s u = t u → applyUserOp cat s u op u = applyUserOp cat t u op u) ∧
    (∀ (m : MemStore) (u v : String), v ≠ u → (get_memory m u).2 v = m v) := by
  refine ⟨?_, ?_, ?_⟩
  · intro cat s u op v hv
    cases op with
    | getOrCreate =>
      simp only [applyUserOp, get_or_create]
      cases h : s u with
      | some d => rfl
      | none => simp [hv]
    | draftOp o =>
      simp only [applyUserOp]
      cases h : s u with
      | some d => simp [hv]
      | none => rfl
  · intro cat s t u op h
    cases op with
    | getOrCreate =>
      simp only [applyUserOp, get_or_create, h]
      cases ht : t u with
      | some d => exact h
      | none => simp
    | draftOp o =>
      simp only [applyUserOp, h]
      cases ht : t u with
      | some d => simp
      | none => exact h
  · intro m u v hv
    simp only [get_memory]
    cases h : m u with
    | some x => rfl
    | none => simp [hv]

/-- Witness for C9: an operation by one user leaves the entries of another
of the draft store and the memory store unchanged. -/
theorem user_isolation_witness :
    applyUserOp cat2 emptyStore "alice" .getOrCreate "bob" = emptyStore "bob" ∧
    applyUserOp cat2 emptyStore "alice" .getOrCreate "alice" =
      applyUserOp cat2 emptyStore "alice" .getOrCreate "alice" ∧
    (get_memory emptyMemStore "alice").2 "bob" = emptyMemStore "bob" :=
  ⟨user_isolation.1 cat2 emptyStore "alice" .getOrCreate "bob" (by decide),
   user_isolation.2.1 cat2 emptyStore emptyStore "alice" .getOrCreate rfl,
   user_isolation.2.2 emptyMemStore "alice" "bob" (by decide)⟩

end DesertBooking
